import Mathlib

/-!
Shallow embedding of the paper-trading simulator of `nof1ai`.

The embedding covers:
- `src/exchange/upstox_rest_client.py`, class `UpstoxRestClient`, paper mode:
  `place_order`, `cancel_order`, `get_positions`, `close_position`,
  `normalize_quantity_to_lots`, `calculate_margin`.
- `src/exchange/upstox_marketdata.py`, class `UpstoxMarketData`:
  `_place_paper_trade` (the simulator that tracks `paper_capital_inr`).

Python floats are modelled as exact rationals (`ℚ`), Python ints as `ℤ`.
Python dicts keyed by strings / order ids are modelled as association lists
with `lookupKey` / `insertKey` (replace) / `eraseKey` (remove key).
Generated order ids (`uuid4`) and wall-clock timestamps (`datetime.now`)
are modelled as explicit `Nat` parameters threaded by the caller, and the
fallback value of `self.get_current_price(symbol)` is an explicit argument,
since those are the only non-deterministic inputs of the paper paths.
`Except String` models Python exceptions (`ValueError`), with the source's
message strings.
-/

/-- Python's `str.lower()` restricted to the ASCII strings this code passes
(side tags such as `"buy"`, `"SELL"`). -/
def strLower (s : String) : String := ⟨s.data.map Char.toLower⟩

instance {ε α : Type} [DecidableEq ε] [DecidableEq α] : DecidableEq (Except ε α) := fun x y =>
  match x, y with
  | .ok a, .ok b =>
      if h : a = b then isTrue (by rw [h]) else isFalse (by intro hc; cases hc; exact h rfl)
  | .error a, .error b =>
      if h : a = b then isTrue (by rw [h]) else isFalse (by intro hc; cases hc; exact h rfl)
  | .ok _, .error _ => isFalse (by intro hc; cases hc)
  | .error _, .ok _ => isFalse (by intro hc; cases hc)

/-- Python's `x or d` for an optional float `x`: `None` and `0.0` are falsy. -/
def pyOr (x : Option ℚ) (d : ℚ) : ℚ :=
  match x with
  | none => d
  | some v => if v = 0 then d else v

/-- Python's `x or d` for an optional int `x`: `None` and `0` are falsy. -/
def pyOrInt (x : Option Int) (d : Int) : Int :=
  match x with
  | none => d
  | some v => if v = 0 then d else v

/-- Dict lookup: `d.get(k)` on an association list. -/
def lookupKey {α β : Type} [DecidableEq α] : List (α × β) → α → Option β
  | [], _ => none
  | (k, v) :: rest, key => if k = key then some v else lookupKey rest key

/-- Dict write: `d[k] = v` (replace the binding if the key is present). -/
def insertKey {α β : Type} [DecidableEq α] : List (α × β) → α → β → List (α × β)
  | [], key, val => [(key, val)]
  | (k, v) :: rest, key, val =>
      if k = key then (key, val) :: rest else (k, v) :: insertKey rest key val

/-- Dict removal: `d.pop(k, None)` (drop every binding of the key). -/
def eraseKey {α β : Type} [DecidableEq α] : List (α × β) → α → List (α × β)
  | [], _ => []
  | (k, v) :: rest, key =>
      if k = key then eraseKey rest key else (k, v) :: eraseKey rest key

/-- One simulated order record, as built by `UpstoxRestClient.place_order`
(paper mode) and mutated by `cancel_order`. -/
structure Order where
  order_id : Nat
  symbol : String
  quantity : Int
  side : String
  order_type : String
  price : Option ℚ
  status : String
  filled_quantity : Int
  timestamp : Nat
  cancelled_at : Option Nat
deriving DecidableEq, Repr

/-- One entry of `UpstoxRestClient._paper_positions`. -/
structure Position where
  quantity : Int
  avg_price : ℚ
  current_price : ℚ
deriving DecidableEq, Repr

/-- The paper-mode mutable state of one `UpstoxRestClient` instance. -/
structure ClientState where
  paper_orders : List (Nat × Order)
  paper_positions : List (String × Position)
deriving DecidableEq, Repr

/-- The state of a freshly constructed paper-mode client: both stores empty. -/
def initState : ClientState := ⟨[], []⟩

/-- `UpstoxRestClient.place_order`, paper-mode path
(`src/exchange/upstox_rest_client.py` lines 164-228).
`oid` stands for the generated `uuid4` string, `now` for
`datetime.now(timezone.utc)`. -/
def place_order (st : ClientState) (oid now : Nat) (symbol : String)
    (quantity : Int) (side : String) (order_type : String) (price : Option ℚ) :
    Except String (Order × ClientState) :=
  let side := strLower side
  if side ≠ "buy" ∧ side ≠ "sell" then
    .error "side must be buy or sell"
  else if quantity ≤ 0 then
    .error "quantity must be positive integer"
  else
    let order : Order :=
      { order_id := oid, symbol := symbol, quantity := quantity, side := side,
        order_type := order_type, price := price, status := "placed",
        filled_quantity := quantity, timestamp := now, cancelled_at := none }
    let orders' := insertKey st.paper_orders oid order
    let pos := (lookupKey st.paper_positions symbol).getD ⟨0, 0, 0⟩
    let existing_qty := pos.quantity
    let existing_avg := pos.avg_price
    if side = "buy" then
      let total_cost := existing_avg * (existing_qty : ℚ) + pyOr price 0 * (quantity : ℚ)
      let new_qty := existing_qty + quantity
      let new_avg := if new_qty > 0 then total_cost / (new_qty : ℚ) else 0
      .ok (order,
        { paper_orders := orders',
          paper_positions :=
            insertKey st.paper_positions symbol ⟨new_qty, new_avg, pyOr price new_avg⟩ })
    else
      let new_qty := existing_qty - quantity
      if new_qty ≤ 0 then
        .ok (order,
          { paper_orders := orders',
            paper_positions := eraseKey st.paper_positions symbol })
      else
        .ok (order,
          { paper_orders := orders',
            paper_positions :=
              insertKey st.paper_positions symbol
                ⟨new_qty, existing_avg, pyOr price existing_avg⟩ })

/-- Result of `UpstoxRestClient.cancel_order`: either the not-found sentinel
dict or the (mutated) order record. -/
inductive CancelResult where
  | not_found (order_id : Nat)
  | found (o : Order)
deriving DecidableEq, Repr

/-- `UpstoxRestClient.cancel_order`, paper-mode path
(`src/exchange/upstox_rest_client.py` lines 257-266). `now` stands for
`datetime.now(timezone.utc)` at the time of the call. -/
def cancel_order (st : ClientState) (oid now : Nat) : CancelResult × ClientState :=
  match lookupKey st.paper_orders oid with
  | none => (.not_found oid, st)
  | some order =>
      let order' := { order with status := "cancelled", cancelled_at := some now }
      (.found order', { st with paper_orders := insertKey st.paper_orders oid order' })

/-- One row of the `get_positions` snapshot. -/
structure PositionView where
  symbol : String
  quantity : Int
  avg_price : ℚ
  current_price : ℚ
deriving DecidableEq, Repr

/-- `UpstoxRestClient.get_positions`, paper-mode path
(`src/exchange/upstox_rest_client.py` lines 277-287). -/
def get_positions (st : ClientState) : List PositionView :=
  st.paper_positions.map fun kv => ⟨kv.1, kv.2.quantity, kv.2.avg_price, kv.2.current_price⟩

/-- `UpstoxRestClient.close_position`, paper-mode path
(`src/exchange/upstox_rest_client.py` lines 295-313). The embedded
`place_order` call passes `price = none` and `order_type = "market"` exactly
as the source does; an exception from it propagates. -/
def close_position (st : ClientState) (oid now : Nat) (symbol : String) :
    Except String (Bool × ClientState) :=
  match lookupKey st.paper_positions symbol with
  | none => .ok (true, st)
  | some pos =>
      if pos.quantity = 0 then .ok (true, st)
      else
        let side := if pos.quantity > 0 then "sell" else "buy"
        match place_order st oid now symbol (pos.quantity.natAbs : Int) side "market" none with
        | .error e => .error e
        | .ok (_, st') =>
            .ok (true, { st' with paper_positions := eraseKey st'.paper_positions symbol })

/-- `UpstoxRestClient.normalize_quantity_to_lots`
(`src/exchange/upstox_rest_client.py` lines 345-358). -/
def normalize_quantity_to_lots (quantity : Int) (lot_size : Option Int) : Int :=
  let lot := pyOrInt lot_size 1
  if lot ≤ 1 then quantity
  else (Int.fdiv quantity lot) * lot

/-- `UpstoxRestClient.calculate_margin`
(`src/exchange/upstox_rest_client.py` lines 360-368). -/
def calculate_margin (notional_in_inr : ℚ) (leverage : ℚ) : Except String ℚ :=
  if leverage ≤ 0 then .error "leverage must be > 0"
  else .ok (abs notional_in_inr / leverage)

/-- One entry of `UpstoxMarketData.paper_positions`
(`src/exchange/upstox_marketdata.py`). -/
structure MDPosition where
  quantity : Int
  avg_price : ℚ
deriving DecidableEq, Repr

/-- The paper state of one `UpstoxMarketData` instance: the cash balance
`paper_capital_inr` and the positions dict. -/
structure MDState where
  paper_capital_inr : ℚ
  paper_positions : List (String × MDPosition)
deriving DecidableEq, Repr

/-- The dict returned by `UpstoxMarketData._place_paper_trade`. -/
structure TradeRec where
  status : String
  trade_id : Nat
  symbol : String
  side : String
  quantity : Int
  price : ℚ
deriving DecidableEq, Repr

/-- `UpstoxMarketData._place_paper_trade`
(`src/exchange/upstox_marketdata.py` lines 126-155). `current_price` is the
value `self.get_current_price(symbol)` would return (the price source), and
`trade_id` stands for the generated `PAPER_<time>` id. -/
def place_paper_trade (st : MDState) (symbol side : String) (quantity : Int)
    (price : Option ℚ) (current_price : ℚ) (trade_id : Nat) : TradeRec × MDState :=
  let ltp := pyOr price current_price
  let notional := (quantity : ℚ) * ltp
  let pos := (lookupKey st.paper_positions symbol).getD ⟨0, 0⟩
  let pos' : MDPosition :=
    if side = "BUY" then
      let total_qty := pos.quantity + quantity
      let avg : ℚ :=
        if total_qty = 0 then 0
        else (pos.avg_price * (pos.quantity : ℚ) + ltp * (quantity : ℚ)) / ((max 1 total_qty : Int) : ℚ)
      ⟨total_qty, avg⟩
    else
      ⟨pos.quantity - quantity, pos.avg_price⟩
  let capital' :=
    if side = "BUY" then st.paper_capital_inr - notional
    else st.paper_capital_inr + notional
  (⟨"success", trade_id, symbol, side, quantity, ltp⟩,
   ⟨capital', insertKey st.paper_positions symbol pos'⟩)

/-- One paper-mode API call against a `UpstoxRestClient`, with its
non-deterministic inputs (generated id, wall clock) made explicit. -/
inductive Op where
  | place (oid now : Nat) (symbol : String) (quantity : Int)
      (side order_type : String) (price : Option ℚ)
  | cancel (oid now : Nat)
  | close (oid now : Nat) (symbol : String)
deriving Repr

/-- Apply one call to the client state; a raised exception leaves the state
as it was at raise time (validation in `place_order` precedes all writes). -/
def runOp (st : ClientState) : Op → ClientState
  | .place oid now sym q side otype price =>
      match place_order st oid now sym q side otype price with
      | .ok r => r.2
      | .error _ => st
  | .cancel oid now => (cancel_order st oid now).2
  | .close oid now sym =>
      match close_position st oid now sym with
      | .ok r => r.2
      | .error _ => st

/-- Apply a sequence of calls in order. -/
def runOps (st : ClientState) : List Op → ClientState
  | [] => st
  | op :: rest => runOps (runOp st op) rest

/-- Apply a nonempty sequence of BUY fills with explicit prices on one symbol
through `place_order` (generated ids and clock fixed at 0; they do not touch
the position ledger). -/
def placeBuys (st : ClientState) (sym : String) : List (Int × ℚ) → ClientState
  | [] => st
  | (q, p) :: rest =>
      match place_order st 0 0 sym q "buy" "market" (some p) with
      | .ok r => placeBuys r.2 sym rest
      | .error _ => placeBuys st sym rest

lemma strLower_buy : strLower "buy" = "buy" := by decide

lemma strLower_sell : strLower "sell" = "sell" := by decide

lemma lookupKey_insertKey_self {α β : Type} [DecidableEq α] (l : List (α × β)) (k : α) (v : β) :
    lookupKey (insertKey l k v) k = some v := by
  induction l with
  | nil => simp [insertKey, lookupKey]
  | cons kv rest ih =>
      obtain ⟨k', v'⟩ := kv
      by_cases h : k' = k
      · simp [insertKey, h, lookupKey]
      · simp [insertKey, h, lookupKey, ih]

lemma lookupKey_eraseKey_self {α β : Type} [DecidableEq α] (l : List (α × β)) (k : α) :
    lookupKey (eraseKey l k) k = none := by
  induction l with
  | nil => simp [eraseKey, lookupKey]
  | cons kv rest ih =>
      obtain ⟨k', v'⟩ := kv
      by_cases h : k' = k
      · simp [eraseKey, h, ih]
      · simp [eraseKey, h, lookupKey, ih]

lemma lookupKey_eraseKey_ne {α β : Type} [DecidableEq α] (l : List (α × β)) (k k' : α)
    (h : k' ≠ k) : lookupKey (eraseKey l k) k' = lookupKey l k' := by
  induction l with
  | nil => simp [eraseKey]
  | cons kv rest ih =>
      obtain ⟨a, b⟩ := kv
      by_cases ha : a = k
      · subst ha
        simp [eraseKey, lookupKey, Ne.symm h, ih]
      · by_cases hb : a = k'
        · simp [eraseKey, ha, lookupKey, hb, h]
        · simp [eraseKey, ha, lookupKey, hb, ih]

lemma lookupKey_insertKey_ne {α β : Type} [DecidableEq α] (l : List (α × β)) (k k' : α) (v : β)
    (h : k' ≠ k) : lookupKey (insertKey l k v) k' = lookupKey l k' := by
  induction l with
  | nil => simp [insertKey, lookupKey, Ne.symm h]
  | cons kv rest ih =>
      obtain ⟨a, b⟩ := kv
      by_cases ha : a = k
      · subst ha
        simp [insertKey, lookupKey, Ne.symm h]
      · by_cases hb : a = k'
        · simp [insertKey, ha, lookupKey, hb, h]
        · simp [insertKey, ha, lookupKey, hb, ih]

lemma mem_insertKey {α β : Type} [DecidableEq α] (l : List (α × β)) (k : α) (v : β)
    (kv : α × β) : kv ∈ insertKey l k v → kv = (k, v) ∨ kv ∈ l := by
  induction l with
  | nil => intro h; simpa [insertKey] using h
  | cons hd rest ih =>
      obtain ⟨a, b⟩ := hd
      intro h
      by_cases ha : a = k
      · rw [insertKey, if_pos ha] at h
        rcases List.mem_cons.mp h with h | h
        · exact Or.inl h
        · exact Or.inr (List.mem_cons_of_mem _ h)
      · rw [insertKey, if_neg ha] at h
        rcases List.mem_cons.mp h with h | h
        · exact Or.inr (h ▸ List.mem_cons_self _ _)
        · rcases ih h with h' | h'
          · exact Or.inl h'
          · exact Or.inr (List.mem_cons_of_mem _ h')

lemma mem_eraseKey {α β : Type} [DecidableEq α] (l : List (α × β)) (k : α)
    (kv : α × β) : kv ∈ eraseKey l k → kv ∈ l := by
  induction l with
  | nil => intro h; simp [eraseKey] at h
  | cons hd rest ih =>
      obtain ⟨a, b⟩ := hd
      intro h
      by_cases ha : a = k
      · rw [eraseKey, if_pos ha] at h
        exact List.mem_cons_of_mem _ (ih h)
      · rw [eraseKey, if_neg ha] at h
        rcases List.mem_cons.mp h with h | h
        · exact h ▸ List.mem_cons_self _ _
        · exact List.mem_cons_of_mem _ (ih h)

lemma lookupKey_mem {α β : Type} [DecidableEq α] (l : List (α × β)) (k : α) (v : β)
    : lookupKey l k = some v → (k, v) ∈ l := by
  induction l with
  | nil => intro h; simp [lookupKey] at h
  | cons hd rest ih =>
      obtain ⟨a, b⟩ := hd
      intro h
      by_cases ha : a = k
      · subst ha
        rw [lookupKey, if_pos rfl] at h
        injection h with h
        subst h
        exact List.mem_cons_self _ _
      · rw [lookupKey, if_neg ha] at h
        exact List.mem_cons_of_mem _ (ih h)

lemma place_order_buy_eq (st : ClientState) (oid now : Nat) (sym otype : String)
    (q : Int) (price : Option ℚ) (ex : Position) (hq : 0 < q)
    (hex : (lookupKey st.paper_positions sym).getD ⟨0, 0, 0⟩ = ex) :
    place_order st oid now sym q "buy" otype price =
      .ok ({ order_id := oid, symbol := sym, quantity := q, side := "buy",
             order_type := otype, price := price, status := "placed",
             filled_quantity := q, timestamp := now, cancelled_at := none },
           { paper_orders := insertKey st.paper_orders oid
               { order_id := oid, symbol := sym, quantity := q, side := "buy",
                 order_type := otype, price := price, status := "placed",
                 filled_quantity := q, timestamp := now, cancelled_at := none },
             paper_positions := insertKey st.paper_positions sym
               ⟨ex.quantity + q,
                (if ex.quantity + q > 0 then
                   (ex.avg_price * (ex.quantity : ℚ) + pyOr price 0 * (q : ℚ)) / ((ex.quantity + q : Int) : ℚ)
                 else 0),
                pyOr price (if ex.quantity + q > 0 then
                   (ex.avg_price * (ex.quantity : ℚ) + pyOr price 0 * (q : ℚ)) / ((ex.quantity + q : Int) : ℚ)
                 else 0)⟩ }) := by
  simp only [place_order, strLower_buy, hex]
  rw [if_neg (by decide), if_neg (not_le.mpr hq)]
  simp only [if_true, eq_self_iff_true, ite_true]

lemma place_order_sell_erase (st : ClientState) (oid now : Nat) (sym otype : String)
    (q : Int) (price : Option ℚ) (ex : Position) (hq : 0 < q)
    (hex : (lookupKey st.paper_positions sym).getD ⟨0, 0, 0⟩ = ex)
    (hle : ex.quantity - q ≤ 0) :
    place_order st oid now sym q "sell" otype price =
      .ok ({ order_id := oid, symbol := sym, quantity := q, side := "sell",
             order_type := otype, price := price, status := "placed",
             filled_quantity := q, timestamp := now, cancelled_at := none },
           { paper_orders := insertKey st.paper_orders oid
               { order_id := oid, symbol := sym, quantity := q, side := "sell",
                 order_type := otype, price := price, status := "placed",
                 filled_quantity := q, timestamp := now, cancelled_at := none },
             paper_positions := eraseKey st.paper_positions sym }) := by
  simp only [place_order, strLower_sell, hex]
  rw [if_neg (by decide), if_neg (not_le.mpr hq), if_neg (by decide), if_pos hle]

lemma place_order_sell_keep (st : ClientState) (oid now : Nat) (sym otype : String)
    (q : Int) (price : Option ℚ) (ex : Position) (hq : 0 < q)
    (hex : (lookupKey st.paper_positions sym).getD ⟨0, 0, 0⟩ = ex)
    (hgt : 0 < ex.quantity - q) :
    place_order st oid now sym q "sell" otype price =
      .ok ({ order_id := oid, symbol := sym, quantity := q, side := "sell",
             order_type := otype, price := price, status := "placed",
             filled_quantity := q, timestamp := now, cancelled_at := none },
           { paper_orders := insertKey st.paper_orders oid
               { order_id := oid, symbol := sym, quantity := q, side := "sell",
                 order_type := otype, price := price, status := "placed",
                 filled_quantity := q, timestamp := now, cancelled_at := none },
             paper_positions := insertKey st.paper_positions sym
               ⟨ex.quantity - q, ex.avg_price, pyOr price ex.avg_price⟩ }) := by
  simp only [place_order, strLower_sell, hex]
  rw [if_neg (by decide), if_neg (not_le.mpr hq), if_neg (by decide), if_neg (not_le.mpr hgt)]

lemma place_order_invalid_side (st : ClientState) (oid now : Nat) (sym : String)
    (q : Int) (side otype : String) (price : Option ℚ)
    (h : strLower side ≠ "buy" ∧ strLower side ≠ "sell") :
    place_order st oid now sym q side otype price = .error "side must be buy or sell" := by
  simp only [place_order]
  rw [if_pos h]

lemma place_order_invalid_qty (st : ClientState) (oid now : Nat) (sym : String)
    (q : Int) (side otype : String) (price : Option ℚ)
    (hside : ¬(strLower side ≠ "buy" ∧ strLower side ≠ "sell")) (h : q ≤ 0) :
    place_order st oid now sym q side otype price = .error "quantity must be positive integer" := by
  simp only [place_order]
  rw [if_neg hside, if_pos h]

/-- C8: for every non-negative quantity `q` and lot size `L`,
`normalize_quantity_to_lots(q, L)` returns `r` with `0 ≤ r ≤ q`; `r` is an
exact multiple of `L` when `L > 1`; and `r = q` when `L ≤ 1` — it never
rounds up and never returns a negative output for non-negative input. -/
theorem normalize_lots_spec (q L : Int) (hq : 0 ≤ q) :
    0 ≤ normalize_quantity_to_lots q (some L)
    ∧ normalize_quantity_to_lots q (some L) ≤ q
    ∧ (1 < L → normalize_quantity_to_lots q (some L) % L = 0)
    ∧ (L ≤ 1 → normalize_quantity_to_lots q (some L) = q) := by
  by_cases hL0 : L = 0
  · subst hL0
    refine ⟨?_, ?_, ?_, ?_⟩ <;>
      simp [normalize_quantity_to_lots, pyOrInt, hq]
  · by_cases hL1 : L ≤ 1
    · have : normalize_quantity_to_lots q (some L) = q := by
        simp [normalize_quantity_to_lots, pyOrInt, hL0, hL1]
      rw [this]
      exact ⟨hq, le_refl q, fun h => absurd h (not_lt.mpr hL1), fun _ => rfl⟩
    · push_neg at hL1
      have hLpos : (0 : Int) < L := by omega
      have hval : normalize_quantity_to_lots q (some L) = q / L * L := by
        simp only [normalize_quantity_to_lots, pyOrInt, if_neg hL0]
        rw [if_neg (not_le.mpr hL1), Int.fdiv_eq_ediv q (le_of_lt hLpos)]
      rw [hval]
      refine ⟨mul_nonneg (Int.ediv_nonneg hq (le_of_lt hLpos)) (le_of_lt hLpos),
        Int.ediv_mul_le q (by omega), fun _ => Int.mul_emod_left (q / L) L, fun h => absurd h (not_le.mpr hL1)⟩

/-- C8 witness: `normalize_quantity_to_lots 120 (some 50) = 100` satisfies
the specification at a concrete input. -/
theorem normalize_lots_spec_witness :
    (0 : Int) ≤ 120
    ∧ (0 ≤ normalize_quantity_to_lots 120 (some 50)
       ∧ normalize_quantity_to_lots 120 (some 50) ≤ 120
       ∧ (1 < (50 : Int) → normalize_quantity_to_lots 120 (some 50) % 50 = 0)
       ∧ ((50 : Int) ≤ 1 → normalize_quantity_to_lots 120 (some 50) = 120)) :=
  ⟨by decide, normalize_lots_spec 120 50 (by decide)⟩

/-- C9: `calculate_margin N lev` returns `|N| / lev` (equal to `N / lev` for
non-negative `N`) for every `lev > 0`, and fails for every `lev ≤ 0`. -/
theorem calculate_margin_spec (N lev : ℚ) :
    (0 < lev → calculate_margin N lev = .ok (abs N / lev) ∧ (0 ≤ N → abs N / lev = N / lev))
    ∧ (lev ≤ 0 → calculate_margin N lev = .error "leverage must be > 0") := by
  constructor
  · intro hlev
    constructor
    · simp [calculate_margin, not_le.mpr hlev]
    · intro hN
      rw [abs_of_nonneg hN]
  · intro hlev
    simp [calculate_margin, hlev]

/-- C9 witness: `calculate_margin 100000 10 = 10000` at a concrete input. -/
theorem calculate_margin_spec_witness :
    (0 : ℚ) < 10
    ∧ (calculate_margin 100000 10 = .ok (abs (100000 : ℚ) / 10)
       ∧ ((0 : ℚ) ≤ 100000 → abs (100000 : ℚ) / 10 = 100000 / 10))
    ∧ abs (100000 : ℚ) / 10 = 10000 :=
  ⟨by norm_num, (calculate_margin_spec 100000 10).1 (by norm_num), by norm_num⟩

/-- C3: every BUY fill applied by the paper simulator decreases the available
cash balance (`paper_capital_inr`) by fill price × fill quantity, and every
SELL fill increases it by the same notional, unconditionally, for every
pre-state (hence regardless of which position-update branch applies);
the fill price is the one recorded on the returned trade. -/
theorem fill_cash_adjustment (st : MDState) (sym : String) (q : Int)
    (price : Option ℚ) (cur : ℚ) (tid : Nat) :
    ((place_paper_trade st sym "BUY" q price cur tid).2.paper_capital_inr
        = st.paper_capital_inr
          - (q : ℚ) * (place_paper_trade st sym "BUY" q price cur tid).1.price)
    ∧ ((place_paper_trade st sym "SELL" q price cur tid).2.paper_capital_inr
        = st.paper_capital_inr
          + (q : ℚ) * (place_paper_trade st sym "SELL" q price cur tid).1.price) := by
  constructor
  · simp [place_paper_trade]
  · simp [place_paper_trade]

lemma sell_ne_buy : ("sell" : String) ≠ "buy" := by decide

lemma place_order_ok (st : ClientState) (oid now : Nat) (sym : String)
    (q : Int) (side otype : String) (price : Option ℚ)
    (hside : strLower side = "buy" ∨ strLower side = "sell") (hq : 0 < q) :
    (place_order st oid now sym q side otype price).map
        (fun r => (r.1.status, r.1.filled_quantity)) = .ok ("placed", q) := by
  rcases hside with h | h
  · simp only [place_order, h]
    rw [if_neg (by decide), if_neg (not_le.mpr hq)]
    simp [Except.map]
  · simp only [place_order, h]
    rw [if_neg (by decide), if_neg (not_le.mpr hq)]
    rw [if_neg sell_ne_buy]
    split <;> simp [Except.map]

/-- C4 (amended): `place_order` raises exactly when the requested quantity is
non-positive or the lowercased side is neither buy nor sell; the order kind is
never validated; every request passing those two checks yields an order with
status placed and filled quantity equal to the requested quantity. -/
theorem place_order_validation (st : ClientState) (oid now : Nat) (sym : String)
    (q : Int) (side otype : String) (price : Option ℚ) :
    ((∃ e, place_order st oid now sym q side otype price = .error e)
        ↔ ((strLower side ≠ "buy" ∧ strLower side ≠ "sell") ∨ q ≤ 0))
    ∧ ((strLower side = "buy" ∨ strLower side = "sell") → 0 < q →
        (place_order st oid now sym q side otype price).map
            (fun r => (r.1.status, r.1.filled_quantity)) = .ok ("placed", q)) := by
  constructor
  · constructor
    · rintro ⟨e, he⟩
      by_contra hcon
      push_neg at hcon
      obtain ⟨hside, hq⟩ := hcon
      have hside' : strLower side = "buy" ∨ strLower side = "sell" := by tauto
      have hok := place_order_ok st oid now sym q side otype price hside' (by omega)
      rw [he] at hok
      exact Except.noConfusion hok
    · rintro (h | h)
      · exact ⟨_, place_order_invalid_side st oid now sym q side otype price h⟩
      · by_cases hside : strLower side ≠ "buy" ∧ strLower side ≠ "sell"
        · exact ⟨_, place_order_invalid_side st oid now sym q side otype price hside⟩
        · exact ⟨_, place_order_invalid_qty st oid now sym q side otype price hside h⟩
  · exact place_order_ok st oid now sym q side otype price

/-- C4 witness: a valid buy request at a concrete input is accepted, placed
and fully filled. -/
theorem place_order_validation_witness :
    (strLower "buy" = "buy" ∨ strLower "buy" = "sell") ∧ (0 : Int) < 5
    ∧ (place_order initState 0 0 "X" 5 "buy" "market" (some 100)).map
        (fun r => (r.1.status, r.1.filled_quantity)) = .ok ("placed", 5) :=
  ⟨Or.inl strLower_buy, by decide,
   (place_order_validation initState 0 0 "X" 5 "buy" "market" (some 100)).2
     (Or.inl strLower_buy) (by decide)⟩

/-- C4 counterexample: an unrecognized order kind is not validated — a request
with order kind `"bogus_kind"` raises nothing and is filled as placed,
contradicting the claim that `place_order` raises for unrecognized kinds. -/
theorem order_kind_not_validated_cex :
    (place_order initState 0 0 "X" 5 "buy" "bogus_kind" (some 100)).map
      (fun r => r.1.status) = .ok "placed" := by
  norm_num [place_order, strLower_buy, initState, lookupKey, insertKey, pyOr, Except.map]

/-- C5 (amended): in paper mode an order with no explicit price consults no
price source and raises nothing: the fill succeeds, and the cost contribution
of the fill is fabricated as 0.0 (a first buy from flat stores average price
0 and current price 0). -/
theorem missing_price_fabricated (sym otype : String) (oid now : Nat) (q : Int)
    (hq : 0 < q) :
    (place_order initState oid now sym q "buy" otype none).map
        (fun r => (r.1.status, lookupKey r.2.paper_positions sym))
      = .ok ("placed", some ⟨q, 0, 0⟩) := by
  rw [place_order_buy_eq initState oid now sym otype q none ⟨0, 0, 0⟩ hq rfl]
  simp [Except.map, lookupKey_insertKey_self, pyOr, hq]

/-- C5 witness: concrete instance of the missing-price fill. -/
theorem missing_price_fabricated_witness :
    (0 : Int) < 7
    ∧ (place_order initState 2 3 "Y" 7 "buy" "market" none).map
        (fun r => (r.1.status, lookupKey r.2.paper_positions "Y"))
      = .ok ("placed", some ⟨7, 0, 0⟩) :=
  ⟨by decide, missing_price_fabricated "Y" "market" 2 3 7 (by decide)⟩

/-- C5 counterexample: a buy with no price and no price source available does
not fail loudly — it returns a placed order and a position whose average
price is the fabricated 0.0, contradicting the claim that `place_order`
raises/propagates. -/
theorem missing_price_no_raise_cex :
    (place_order initState 0 0 "X" 5 "buy" "market" none).map
      (fun r => (r.1.status, lookupKey r.2.paper_positions "X"))
      = .ok ("placed", some ⟨5, 0, 0⟩) := by
  norm_num [place_order, strLower_buy, initState, lookupKey, insertKey, pyOr, Except.map]

/-- C2 (amended): for a fill applied by `place_order` the new quantity is the
old quantity plus the signed delta (+q for buy, −q for sell), but the symbol
is removed from the ledger whenever the sell result is ≤ 0 — not exactly when
it is 0 — so a negative (short) quantity is never stored; a sell that leaves
a strictly positive quantity stores the update. -/
theorem fill_position_update (st : ClientState) (oid now : Nat) (sym : String)
    (q : Int) (p : ℚ) (hq : 0 < q) :
    ((place_order st oid now sym q "buy" "market" (some p)).map
        (fun r => (lookupKey r.2.paper_positions sym).map Position.quantity)
      = .ok (some (((lookupKey st.paper_positions sym).getD ⟨0, 0, 0⟩).quantity + q)))
    ∧ (((lookupKey st.paper_positions sym).getD ⟨0, 0, 0⟩).quantity - q ≤ 0 →
        (place_order st oid now sym q "sell" "market" (some p)).map
          (fun r => lookupKey r.2.paper_positions sym) = .ok none)
    ∧ (0 < ((lookupKey st.paper_positions sym).getD ⟨0, 0, 0⟩).quantity - q →
        (place_order st oid now sym q "sell" "market" (some p)).map
          (fun r => (lookupKey r.2.paper_positions sym).map Position.quantity)
        = .ok (some (((lookupKey st.paper_positions sym).getD ⟨0, 0, 0⟩).quantity - q))) := by
  refine ⟨?_, ?_, ?_⟩
  · rw [place_order_buy_eq st oid now sym "market" q (some p) _ hq rfl]
    simp [Except.map, lookupKey_insertKey_self]
  · intro hle
    rw [place_order_sell_erase st oid now sym "market" q (some p) _ hq rfl hle]
    simp [Except.map, lookupKey_eraseKey_self]
  · intro hgt
    rw [place_order_sell_keep st oid now sym "market" q (some p) _ hq rfl hgt]
    simp [Except.map, lookupKey_insertKey_self]

/-- C2 witness: from a ledger holding 10 of "X", a buy of 3 stores 13, a sell
of 15 removes the symbol, a sell of 3 stores 7. -/
theorem fill_position_update_witness :
    (0 : Int) < 3
    ∧ ((place_order ⟨[], [("X", ⟨10, 50, 50⟩)]⟩ 0 1 "X" 3 "buy" "market" (some 60)).map
        (fun r => (lookupKey r.2.paper_positions "X").map Position.quantity) = .ok (some 13))
    ∧ ((place_order ⟨[], [("X", ⟨10, 50, 50⟩)]⟩ 0 1 "X" 15 "sell" "market" (some 60)).map
        (fun r => lookupKey r.2.paper_positions "X") = .ok none)
    ∧ ((place_order ⟨[], [("X", ⟨10, 50, 50⟩)]⟩ 0 1 "X" 3 "sell" "market" (some 60)).map
        (fun r => (lookupKey r.2.paper_positions "X").map Position.quantity) = .ok (some 7)) := by
  refine ⟨by decide, ?_, ?_, ?_⟩
  · have h := (fill_position_update ⟨[], [("X", ⟨10, 50, 50⟩)]⟩ 0 1 "X" 3 60 (by decide)).1
    norm_num [lookupKey] at h
    exact h
  · have h := (fill_position_update ⟨[], [("X", ⟨10, 50, 50⟩)]⟩ 0 1 "X" 15 60 (by decide)).2.1
      (by norm_num [lookupKey])
    exact h
  · have h := (fill_position_update ⟨[], [("X", ⟨10, 50, 50⟩)]⟩ 0 1 "X" 3 60 (by decide)).2.2
      (by norm_num [lookupKey])
    norm_num [lookupKey] at h
    exact h

/-- C2 counterexample: a sell of 5 from flat gives new quantity −5 ≠ 0, yet
the symbol is absent from the ledger afterwards: the symbol is removed even
though the new quantity is not 0, and no short position is stored. -/
theorem removal_not_iff_zero_cex :
    ((place_order initState 0 0 "Y" 5 "sell" "market" (some 100)).map
       (fun r => lookupKey r.2.paper_positions "Y") = .ok none)
    ∧ ((0 : Int) + (-5) ≠ 0) := by
  constructor
  · norm_num [place_order, strLower_sell, sell_ne_buy, initState, lookupKey, eraseKey,
      insertKey, pyOr, Except.map]
  · decide

/-- C6 (amended): cancelling an unknown id returns the not-found sentinel and
does not raise; cancelling an already-cancelled order leaves it CANCELLED and
returns it with every field except the cancellation timestamp unchanged — the
cancellation timestamp is re-stamped to the time of the later call. -/
theorem cancel_idempotent_safe (st : ClientState) (oid now : Nat) :
    (lookupKey st.paper_orders oid = none →
        cancel_order st oid now = (.not_found oid, st))
    ∧ (∀ o : Order, lookupKey st.paper_orders oid = some o → o.status = "cancelled" →
        (cancel_order st oid now).1
          = .found { o with status := "cancelled", cancelled_at := some now }) := by
  constructor
  · intro h
    simp [cancel_order, h]
  · intro o h hs
    simp [cancel_order, h]

/-- C6 witness: cancelling the never-issued id 7 on a fresh client returns
not-found with the state untouched; re-cancelling a cancelled order at time 9
returns it CANCELLED with only the cancellation timestamp moved to 9. -/
theorem cancel_idempotent_safe_witness :
    cancel_order initState 7 3 = (.not_found 7, initState)
    ∧ (cancel_order
        ⟨[(0, { order_id := 0, symbol := "X", quantity := 5, side := "buy",
                order_type := "market", price := some 100, status := "cancelled",
                filled_quantity := 5, timestamp := 0, cancelled_at := some 1 })], []⟩ 0 9).1
      = .found { order_id := 0, symbol := "X", quantity := 5, side := "buy",
                 order_type := "market", price := some 100, status := "cancelled",
                 filled_quantity := 5, timestamp := 0, cancelled_at := some 9 } := by
  constructor
  · exact (cancel_idempotent_safe initState 7 3).1 rfl
  · exact (cancel_idempotent_safe
      ⟨[(0, { order_id := 0, symbol := "X", quantity := 5, side := "buy",
              order_type := "market", price := some 100, status := "cancelled",
              filled_quantity := 5, timestamp := 0, cancelled_at := some 1 })], []⟩ 0 9).2
      _ rfl rfl

/-- C6 counterexample: after placing order 0 and cancelling it at time 1, the
stored order carries cancellation timestamp 1; cancelling it again at time 2
returns the order with timestamp 2 — the already-cancelled order is *not*
returned unchanged (its cancellation timestamp is re-stamped). -/
theorem cancel_not_unchanged_cex :
    (cancel_order
        (runOps initState [Op.place 0 0 "X" 5 "buy" "market" (some 100), Op.cancel 0 1]) 0 2).1
      = .found { order_id := 0, symbol := "X", quantity := 5, side := "buy",
                 order_type := "market", price := some 100, status := "cancelled",
                 filled_quantity := 5, timestamp := 0, cancelled_at := some 2 }
    ∧ lookupKey
        (runOps initState
          [Op.place 0 0 "X" 5 "buy" "market" (some 100), Op.cancel 0 1]).paper_orders 0
      = some { order_id := 0, symbol := "X", quantity := 5, side := "buy",
               order_type := "market", price := some 100, status := "cancelled",
               filled_quantity := 5, timestamp := 0, cancelled_at := some 1 }
    ∧ (some 2 : Option Nat) ≠ some 1 := by
  refine ⟨?_, ?_, by decide⟩ <;>
    norm_num [runOps, runOp, place_order, strLower_buy, initState, lookupKey, insertKey,
      pyOr, cancel_order, Except.map]

/-- C7: `cancel_order` leaves the position ledger unchanged (it reverses no
fill effect; the client also holds no cash balance that could change) and
touches no other order; for the cancelled order it mutates only the status
and the cancellation timestamp — identifier, symbol, side, quantity and the
other creation-time fields are preserved. -/
theorem cancel_frame (st : ClientState) (oid now : Nat) :
    (cancel_order st oid now).2.paper_positions = st.paper_positions
    ∧ (∀ o : Order, lookupKey st.paper_orders oid = some o →
        (cancel_order st oid now).1
            = .found { o with status := "cancelled", cancelled_at := some now }
          ∧ lookupKey (cancel_order st oid now).2.paper_orders oid
            = some { o with status := "cancelled", cancelled_at := some now })
    ∧ (∀ oid' : Nat, oid' ≠ oid →
        lookupKey (cancel_order st oid now).2.paper_orders oid'
          = lookupKey st.paper_orders oid') := by
  refine ⟨?_, ?_, ?_⟩
  · cases h : lookupKey st.paper_orders oid <;> simp [cancel_order, h]
  · intro o h
    simp [cancel_order, h, lookupKey_insertKey_self]
  · intro oid' hne
    cases h : lookupKey st.paper_orders oid <;>
      simp [cancel_order, h, lookupKey_insertKey_ne _ _ _ _ hne]

/-- C7 witness: at a concrete state holding order 0 (placed) and one position,
cancellation keeps the ledger, rewrites only status/cancellation timestamp of
order 0, and leaves the unknown id 1 unknown. -/
theorem cancel_frame_witness :
    ((cancel_order
        ⟨[(0, { order_id := 0, symbol := "X", quantity := 5, side := "buy",
                order_type := "market", price := some 100, status := "placed",
                filled_quantity := 5, timestamp := 0, cancelled_at := none })],
         [("X", ⟨5, 100, 100⟩)]⟩ 0 4).2.paper_positions = [("X", ⟨5, 100, 100⟩)])
    ∧ (cancel_order
        ⟨[(0, { order_id := 0, symbol := "X", quantity := 5, side := "buy",
                order_type := "market", price := some 100, status := "placed",
                filled_quantity := 5, timestamp := 0, cancelled_at := none })],
         [("X", ⟨5, 100, 100⟩)]⟩ 0 4).1
      = .found { order_id := 0, symbol := "X", quantity := 5, side := "buy",
                 order_type := "market", price := some 100, status := "cancelled",
                 filled_quantity := 5, timestamp := 0, cancelled_at := some 4 }
    ∧ lookupKey (cancel_order
        ⟨[(0, { order_id := 0, symbol := "X", quantity := 5, side := "buy",
                order_type := "market", price := some 100, status := "placed",
                filled_quantity := 5, timestamp := 0, cancelled_at := none })],
         [("X", ⟨5, 100, 100⟩)]⟩ 0 4).2.paper_orders 1 = none := by
  have h := cancel_frame
    ⟨[(0, { order_id := 0, symbol := "X", quantity := 5, side := "buy",
            order_type := "market", price := some 100, status := "placed",
            filled_quantity := 5, timestamp := 0, cancelled_at := none })],
     [("X", ⟨5, 100, 100⟩)]⟩ 0 4
  refine ⟨h.1, ?_, (h.2.2 1 (by decide)).trans rfl⟩
  exact (h.2.1
    { order_id := 0, symbol := "X", quantity := 5, side := "buy",
      order_type := "market", price := some 100, status := "placed",
      filled_quantity := 5, timestamp := 0, cancelled_at := none } rfl).1

lemma cancel_order_positions (st : ClientState) (oid now : Nat) :
    (cancel_order st oid now).2.paper_positions = st.paper_positions := by
  cases h : lookupKey st.paper_orders oid <;> simp [cancel_order, h]

lemma allpos_insertKey (l : List (String × Position)) (k : String) (v : Position)
    (hl : ∀ kv ∈ l, 0 < kv.2.quantity) (hv : 0 < v.quantity) :
    ∀ kv ∈ insertKey l k v, 0 < kv.2.quantity := by
  intro kv hkv
  rcases mem_insertKey l k v kv hkv with h | h
  · rw [h]
    exact hv
  · exact hl kv h

lemma allpos_eraseKey (l : List (String × Position)) (k : String)
    (hl : ∀ kv ∈ l, 0 < kv.2.quantity) :
    ∀ kv ∈ eraseKey l k, 0 < kv.2.quantity :=
  fun kv hkv => hl kv (mem_eraseKey l k kv hkv)

lemma lookup_quantity_nonneg (l : List (String × Position)) (sym : String)
    (hl : ∀ kv ∈ l, 0 < kv.2.quantity) :
    0 ≤ ((lookupKey l sym).getD ⟨0, 0, 0⟩).quantity := by
  cases h : lookupKey l sym with
  | none => simp
  | some p =>
      simp only [Option.getD_some]
      exact le_of_lt (hl (sym, p) (lookupKey_mem l sym p h))

lemma place_order_allpos (st : ClientState) (oid now : Nat) (sym : String)
    (q : Int) (side otype : String) (price : Option ℚ) (o : Order) (st' : ClientState)
    (hres : place_order st oid now sym q side otype price = .ok (o, st'))
    (hl : ∀ kv ∈ st.paper_positions, 0 < kv.2.quantity) :
    ∀ kv ∈ st'.paper_positions, 0 < kv.2.quantity := by
  have hnn := lookup_quantity_nonneg st.paper_positions sym hl
  simp only [place_order] at hres
  split at hres
  · exact absurd hres (by simp)
  · split at hres
    · exact absurd hres (by simp)
    · rename_i hside hqle
      split at hres
      · simp only [Except.ok.injEq, Prod.mk.injEq] at hres
        obtain ⟨-, hst⟩ := hres
        subst hst
        exact allpos_insertKey _ _ _ hl (by simp; omega)
      · split at hres
        · simp only [Except.ok.injEq, Prod.mk.injEq] at hres
          obtain ⟨-, hst⟩ := hres
          subst hst
          exact allpos_eraseKey _ _ hl
        · rename_i hkeep
          simp only [Except.ok.injEq, Prod.mk.injEq] at hres
          obtain ⟨-, hst⟩ := hres
          subst hst
          exact allpos_insertKey _ _ _ hl (by simp; omega)

lemma close_position_allpos (st : ClientState) (oid now : Nat) (sym : String)
    (b : Bool) (st' : ClientState)
    (hres : close_position st oid now sym = .ok (b, st'))
    (hl : ∀ kv ∈ st.paper_positions, 0 < kv.2.quantity) :
    ∀ kv ∈ st'.paper_positions, 0 < kv.2.quantity := by
  simp only [close_position] at hres
  split at hres
  · simp only [Except.ok.injEq, Prod.mk.injEq] at hres
    obtain ⟨-, hst⟩ := hres
    subst hst
    exact hl
  · split at hres
    · simp only [Except.ok.injEq, Prod.mk.injEq] at hres
      obtain ⟨-, hst⟩ := hres
      subst hst
      exact hl
    · split at hres
      · exact absurd hres (by simp)
      · rename_i o2 st2 hpo
        simp only [Except.ok.injEq, Prod.mk.injEq] at hres
        obtain ⟨-, hst⟩ := hres
        subst hst
        exact allpos_eraseKey _ _
          (place_order_allpos _ _ _ _ _ _ _ _ o2 st2 hpo hl)

lemma runOp_allpos (st : ClientState) (op : Op)
    (hl : ∀ kv ∈ st.paper_positions, 0 < kv.2.quantity) :
    ∀ kv ∈ (runOp st op).paper_positions, 0 < kv.2.quantity := by
  cases op with
  | place oid now sym q side otype price =>
      cases hres : place_order st oid now sym q side otype price with
      | ok r =>
          simp only [runOp, hres]
          exact place_order_allpos st oid now sym q side otype price r.1 r.2 hres hl
      | error e =>
          simp only [runOp, hres]
          exact hl
  | cancel oid now =>
      simp only [runOp]
      rw [cancel_order_positions st oid now]
      exact hl
  | close oid now sym =>
      cases hres : close_position st oid now sym with
      | ok r =>
          simp only [runOp, hres]
          exact close_position_allpos st oid now sym r.1 r.2 hres hl
      | error e =>
          simp only [runOp, hres]
          exact hl

lemma runOps_allpos (ops : List Op) (st : ClientState)
    (hl : ∀ kv ∈ st.paper_positions, 0 < kv.2.quantity) :
    ∀ kv ∈ (runOps st ops).paper_positions, 0 < kv.2.quantity := by
  induction ops generalizing st with
  | nil => exact hl
  | cons op rest ih =>
      simp only [runOps]
      exact ih (runOp st op) (runOp_allpos st op hl)

/-- C10: after any sequence of paper-mode `place_order` / `cancel_order` /
`close_position` calls on a fresh client, every position in the ledger (and
every row of the `get_positions` snapshot) has strictly positive net
quantity — a short is never stored; and a sell on a symbol not in the ledger
never creates an entry (so every stored position was created by a buy). -/
theorem paper_positions_always_positive (ops : List Op) :
    ((∀ kv ∈ (runOps initState ops).paper_positions, 0 < kv.2.quantity)
      ∧ (∀ v ∈ get_positions (runOps initState ops), 0 < v.quantity))
    ∧ (∀ (st : ClientState) (oid now : Nat) (sym : String) (q : Int) (p : Option ℚ),
        0 < q → lookupKey st.paper_positions sym = none →
        (place_order st oid now sym q "sell" "market" p).map
          (fun r => lookupKey r.2.paper_positions sym) = .ok none) := by
  constructor
  · have h := runOps_allpos ops initState (by intro kv hkv; simp [initState] at hkv)
    refine ⟨h, ?_⟩
    intro v hv
    simp only [get_positions, List.mem_map] at hv
    obtain ⟨kv, hkv, rfl⟩ := hv
    exact h kv hkv
  · intro st oid now sym q p hq hnone
    have hex : (lookupKey st.paper_positions sym).getD ⟨0, 0, 0⟩ = ⟨0, 0, 0⟩ := by
      rw [hnone]
      rfl
    rw [place_order_sell_erase st oid now sym "market" q p ⟨0, 0, 0⟩ hq hex (by simp; omega)]
    simp [Except.map, lookupKey_eraseKey_self]

/-- C10 witness: one buy of 5 yields a snapshot row with positive quantity,
and a sell on an absent symbol stores nothing. -/
theorem paper_positions_always_positive_witness :
    ((⟨"X", 5, 100, 100⟩ : PositionView) ∈
        get_positions (runOps initState [Op.place 0 0 "X" 5 "buy" "market" (some 100)])
      ∧ (0 : Int) < 5)
    ∧ ((0 : Int) < 3 ∧ lookupKey initState.paper_positions "Z" = none
      ∧ (place_order initState 4 4 "Z" 3 "sell" "market" (some 10)).map
          (fun r => lookupKey r.2.paper_positions "Z") = .ok none) := by
  refine ⟨⟨?_, ?_⟩, by decide, rfl, ?_⟩
  · norm_num [runOps, runOp, get_positions, place_order, strLower_buy, initState,
      lookupKey, insertKey, pyOr]
  · exact (paper_positions_always_positive
      [Op.place 0 0 "X" 5 "buy" "market" (some 100)]).1.2 ⟨"X", 5, 100, 100⟩
      (by norm_num [runOps, runOp, get_positions, place_order, strLower_buy, initState,
        lookupKey, insertKey, pyOr])
  · exact (paper_positions_always_positive []).2 initState 4 4 "Z" 3 (some 10)
      (by decide) rfl

lemma pyOr_some_zero (p : ℚ) : pyOr (some p) 0 = p := by
  simp only [pyOr]
  split <;> simp_all

lemma placeBuys_lookup (sym : String) (fills : List (Int × ℚ)) :
    ∀ (st : ClientState) (Q : Int) (A c : ℚ),
      (∀ x ∈ fills, 0 < x.1) → 0 < Q →
      lookupKey st.paper_positions sym = some ⟨Q, A, c⟩ →
      ∃ c' : ℚ, lookupKey (placeBuys st sym fills).paper_positions sym
        = some ⟨Q + (fills.map Prod.fst).sum,
                (A * (Q : ℚ) + (fills.map fun x => x.2 * (x.1 : ℚ)).sum)
                  / ((Q + (fills.map Prod.fst).sum : Int) : ℚ),
                c'⟩ := by
  induction fills with
  | nil =>
      intro st Q A c hf hQ hlook
      refine ⟨c, ?_⟩
      have hcastQ : ((Q : Int) : ℚ) ≠ 0 := Int.cast_ne_zero.mpr (by omega)
      simp only [placeBuys, List.map_nil, List.sum_nil, add_zero]
      rw [hlook, mul_div_cancel_right₀ A hcastQ]
  | cons f rest ih =>
      obtain ⟨q, p⟩ := f
      intro st Q A c hf hQ hlook
      have hq : 0 < q := hf (q, p) (List.mem_cons_self _ _)
      have hrest : ∀ x ∈ rest, 0 < x.1 := fun x hx => hf x (List.mem_cons_of_mem _ hx)
      have heq := place_order_buy_eq st 0 0 sym "market" q (some p) ⟨Q, A, c⟩ hq
        (by rw [hlook]; rfl)
      simp only [placeBuys, heq, List.map_cons, List.sum_cons]
      have hQq : (0 : Int) < Q + q := by omega
      have hcast : ((Q + q : Int) : ℚ) ≠ 0 := Int.cast_ne_zero.mpr (by omega)
      obtain ⟨c', hc'⟩ := ih
        ⟨insertKey st.paper_orders 0
            ⟨0, sym, q, "buy", "market", some p, "placed", q, 0, none⟩,
          insertKey st.paper_positions sym
            ⟨Q + q,
             if Q + q > 0 then
               (A * (Q : ℚ) + pyOr (some p) 0 * (q : ℚ)) / ((Q + q : Int) : ℚ)
             else 0,
             pyOr (some p)
               (if Q + q > 0 then
                  (A * (Q : ℚ) + pyOr (some p) 0 * (q : ℚ)) / ((Q + q : Int) : ℚ)
                else 0)⟩⟩
        (Q + q)
        (if Q + q > 0 then
           (A * (Q : ℚ) + pyOr (some p) 0 * (q : ℚ)) / ((Q + q : Int) : ℚ)
         else 0)
        (pyOr (some p)
          (if Q + q > 0 then
             (A * (Q : ℚ) + pyOr (some p) 0 * (q : ℚ)) / ((Q + q : Int) : ℚ)
           else 0))
        hrest hQq (lookupKey_insertKey_self _ _ _)
      rw [if_pos (show Q + q > 0 by omega), pyOr_some_zero,
        div_mul_cancel₀ _ hcast] at hc'
      refine ⟨c', ?_⟩
      rw [if_pos (show Q + q > 0 by omega), pyOr_some_zero, hc']
      simp only [Option.some.injEq, Position.mk.injEq]
      refine ⟨by omega, ?_, trivial⟩
      push_cast
      rw [add_assoc, add_assoc]

/-- C1 (amended): for every nonempty sequence of BUY fills on one symbol with
explicit prices applied through `place_order` on a fresh client, the resulting
position's net quantity equals the sum of the fill quantities and its average
price equals the quantity-weighted mean of the fill prices; the original
claim fails for SELL sequences because the ledger never stores a short. -/
theorem buy_fill_conservation (sym : String) (fills : List (Int × ℚ))
    (hfills : ∀ x ∈ fills, 0 < x.1) (hne : fills ≠ []) :
    ∃ pos : Position,
      lookupKey (placeBuys initState sym fills).paper_positions sym = some pos
      ∧ pos.quantity = (fills.map Prod.fst).sum
      ∧ pos.avg_price
        = (fills.map fun x => x.2 * (x.1 : ℚ)).sum
          / (((fills.map Prod.fst).sum : Int) : ℚ) := by
  cases fills with
  | nil => exact absurd rfl hne
  | cons f rest =>
      obtain ⟨q, p⟩ := f
      have hq : 0 < q := hfills (q, p) (List.mem_cons_self _ _)
      have hrest : ∀ x ∈ rest, 0 < x.1 := fun x hx => hfills x (List.mem_cons_of_mem _ hx)
      have heq := place_order_buy_eq initState 0 0 sym "market" q (some p) ⟨0, 0, 0⟩ hq rfl
      simp only [placeBuys, heq, List.map_cons, List.sum_cons]
      have hcast : ((0 + q : Int) : ℚ) ≠ 0 := Int.cast_ne_zero.mpr (by omega)
      obtain ⟨c', hc'⟩ := placeBuys_lookup sym rest
        ⟨insertKey initState.paper_orders 0
            ⟨0, sym, q, "buy", "market", some p, "placed", q, 0, none⟩,
          insertKey initState.paper_positions sym
            ⟨0 + q,
             if 0 + q > 0 then
               ((0 : ℚ) * ((0 : Int) : ℚ) + pyOr (some p) 0 * (q : ℚ)) / ((0 + q : Int) : ℚ)
             else 0,
             pyOr (some p)
               (if 0 + q > 0 then
                  ((0 : ℚ) * ((0 : Int) : ℚ) + pyOr (some p) 0 * (q : ℚ)) / ((0 + q : Int) : ℚ)
                else 0)⟩⟩
        (0 + q)
        (if 0 + q > 0 then
           ((0 : ℚ) * ((0 : Int) : ℚ) + pyOr (some p) 0 * (q : ℚ)) / ((0 + q : Int) : ℚ)
         else 0)
        (pyOr (some p)
          (if 0 + q > 0 then
             ((0 : ℚ) * ((0 : Int) : ℚ) + pyOr (some p) 0 * (q : ℚ)) / ((0 + q : Int) : ℚ)
           else 0))
        hrest (by omega) (lookupKey_insertKey_self _ _ _)
      rw [if_pos (show (0 : Int) + q > 0 by omega), pyOr_some_zero,
        div_mul_cancel₀ _ hcast] at hc'
      rw [if_pos (show (0 : Int) + q > 0 by omega), pyOr_some_zero]
      refine ⟨_, hc', by simp, ?_⟩
      push_cast
      ring_nf

/-- C1 witness: two buys (10 @ 2500, 5 @ 2600) on RELIANCE yield quantity 15
and average price (2500·10 + 2600·5)/15. -/
theorem buy_fill_conservation_witness :
    (∀ x ∈ [((10 : Int), (2500 : ℚ)), (5, 2600)], 0 < x.1)
    ∧ ([((10 : Int), (2500 : ℚ)), (5, 2600)] ≠ [])
    ∧ ∃ pos : Position,
        lookupKey
            (placeBuys initState "RELIANCE"
              [((10 : Int), (2500 : ℚ)), (5, 2600)]).paper_positions "RELIANCE"
          = some pos
        ∧ pos.quantity = ([((10 : Int), (2500 : ℚ)), (5, 2600)].map Prod.fst).sum
        ∧ pos.avg_price
          = ([((10 : Int), (2500 : ℚ)), (5, 2600)].map fun x => x.2 * (x.1 : ℚ)).sum
            / ((([((10 : Int), (2500 : ℚ)), (5, 2600)].map Prod.fst).sum : Int) : ℚ) :=
  ⟨by decide, by decide, buy_fill_conservation "RELIANCE" _ (by decide) (by decide)⟩

/-- C1 counterexample: the one-fill SELL sequence (5 @ 100) from flat is a
same-direction fill sequence with an explicit price whose signed sum is
−5 ≠ 0, yet afterwards the ledger holds no position for the symbol at all,
so the resulting net quantity is not the signed sum of the fill quantities. -/
theorem sell_fill_conservation_cex :
    ((place_order initState 0 0 "Z" 5 "sell" "market" (some 100)).map
       (fun r => lookupKey r.2.paper_positions "Z") = .ok none)
    ∧ ((0 : Int) + (-5) ≠ 0) := by
  constructor
  · norm_num [place_order, strLower_sell, sell_ne_buy, initState, lookupKey, eraseKey,
      insertKey, pyOr, Except.map]
  · decide
